import Mathlib

/-!
Verification of the agentic-GIS map copilot core: the request cache with
inflight deduplication (src/app/api/map-agent/route.ts, src/lib/cache.ts),
the nearby-search pipeline (src/lib/map/google-api.ts `fetchNearbyPlaces`),
the tool argument guard and dispatcher (src/lib/map/tools.ts), and the pure
geographic helpers (geo.ts: buffer-polygon construction and Google polyline
decoding).

Modelling conventions: JS numbers that only ever hold exact quantities
(timestamps, counts, coordinates, ratings, radii) are modelled as ℤ/ℕ/ℚ;
the trigonometric buffer geometry is modelled over ℝ.  JS `Map` objects are
modelled as association lists in insertion order, with `Map.set` replacing
in place and `Map.delete` removing the entry with the key.  Asynchronous
collaborator calls (the upstream LLM call, tool implementations) are
modelled as `Except`-valued oracles passed in as parameters.
-/

/-! ## Request cache (src/app/api/map-agent/route.ts lines 75-167, src/lib/cache.ts) -/

/-- Configuration surface of the response cache: `MAP_AGENT_CACHE_ENABLED`,
`MAP_AGENT_CACHE_TTL_MS`, `MAP_AGENT_CACHE_MAX_ENTRIES`. -/
structure CacheConfig where
  enabled : Bool
  ttlMs : ℤ
  maxEntries : ℕ
deriving DecidableEq

/-- `CacheEntry` from route.ts lines 75-79: a cached payload with its creation
and expiry timestamps (milliseconds). -/
structure CacheEntry (α : Type) where
  value : α
  createdAt : ℤ
  expiresAt : ℤ
deriving DecidableEq

/-- `RESPONSE_CACHE : Map<string, CacheEntry>` modelled as an association
list in insertion order. -/
abbrev Cache (α : Type) := List (String × CacheEntry α)

/-- `Map.get`: the entry stored under a key, if any. -/
def mapGet {α : Type} : Cache α → String → Option (CacheEntry α)
  | [], _ => none
  | (k', e') :: rest, k => if k' = k then some e' else mapGet rest k

/-- `Map.set`: replace in place if the key is present (JS `Map` keeps the
original insertion position), otherwise append at the end. -/
def mapSet {α : Type} : Cache α → String → CacheEntry α → Cache α
  | [], k, e => [(k, e)]
  | (k', e') :: rest, k, e => if k' = k then (k, e) :: rest else (k', e') :: mapSet rest k e

/-- `Map.delete`: remove the entry stored under the key (JS map keys are
unique, so removing the first occurrence is exact). -/
def mapDelete {α : Type} : Cache α → String → Cache α
  | [], _ => []
  | (k', e') :: rest, k => if k' = k then rest else (k', e') :: mapDelete rest k

/-- Keys of a JS `Map` are pairwise distinct; states reachable through the
map API satisfy this. -/
def nodupKeys {α : Type} (c : Cache α) : Prop := (c.map Prod.fst).Nodup

/-- The comparator of `pruneCache`'s `entriesByAge` sort:
`(a, b) => a[1].createdAt - b[1].createdAt`, i.e. ascending `createdAt`. -/
def createdAtLE {α : Type} (a b : String × CacheEntry α) : Prop :=
  a.2.createdAt ≤ b.2.createdAt

instance {α : Type} : DecidableRel (@createdAtLE α) :=
  fun a b => inferInstanceAs (Decidable (a.2.createdAt ≤ b.2.createdAt))

instance {α : Type} : IsTrans (String × CacheEntry α) createdAtLE :=
  ⟨fun _ _ _ hab hbc => le_trans hab hbc⟩

instance {α : Type} : IsTotal (String × CacheEntry α) createdAtLE :=
  ⟨fun a b => le_total a.2.createdAt b.2.createdAt⟩

/-- The `entriesByAge` sort of `pruneCache`: ascending by `createdAt`,
stable.  JS `Array.prototype.sort` is a stable sort; the stable insertion
sort produces the identical output. -/
def sortByCreatedAt {α : Type} (c : Cache α) : Cache α :=
  c.insertionSort createdAtLE

/-- `pruneCache(now)` from route.ts lines 106-133 (same code in cache.ts
lines 48-65): delete every expired entry (`expiresAt <= now`); if the size
still exceeds `maxEntries`, delete the keys of the oldest
`size - maxEntries` entries in `createdAt` order.  Collecting keys and then
deleting each one is, on a map with distinct keys, exactly dropping the
corresponding entries, which is how both loops are rendered here. -/
def pruneCache {α : Type} (cfg : CacheConfig) (c : Cache α) (now : ℤ) : Cache α :=
  let survivors := c.filter (fun p => !decide (p.2.expiresAt ≤ now))
  if survivors.length ≤ cfg.maxEntries then survivors
  else
    let entriesByAge := sortByCreatedAt survivors
    let removeCount := survivors.length - cfg.maxEntries
    let victims := (entriesByAge.take removeCount).map Prod.fst
    survivors.filter (fun p => !victims.contains p.1)

/-- `getCachedResponse` from route.ts lines 135-152 (same code in cache.ts
lines 69-82): `null` when caching is disabled or the TTL is non-positive;
otherwise look the key up, lazily deleting and missing an expired entry.
Returns the looked-up value together with the cache state after the call
(the lazy deletion is a side effect on `RESPONSE_CACHE`). -/
def getCachedResponse {α : Type} (cfg : CacheConfig) (c : Cache α) (key : String)
    (now : ℤ) : Option α × Cache α :=
  if cfg.enabled = false ∨ cfg.ttlMs ≤ 0 then (none, c)
  else
    match mapGet c key with
    | none => (none, c)
    | some entry =>
      if entry.expiresAt ≤ now then (none, mapDelete c key) else (some entry.value, c)

/-- `setCachedResponse` from route.ts lines 154-167 (same code in cache.ts
lines 84-95): a no-op when caching is disabled or the TTL is non-positive;
otherwise prune, then insert the new entry with `createdAt = now` and
`expiresAt = now + ttlMs`. -/
def setCachedResponse {α : Type} (cfg : CacheConfig) (c : Cache α) (key : String)
    (value : α) (now : ℤ) : Cache α :=
  if cfg.enabled = false ∨ cfg.ttlMs ≤ 0 then c
  else mapSet (pruneCache cfg c now) key ⟨value, now, now + cfg.ttlMs⟩

/-- The mutable module state of the route: `RESPONSE_CACHE` and the key set
of `INFLIGHT_REQUESTS` (the pending promises themselves are external). -/
structure ServerState (α : Type) where
  cache : Cache α
  inflight : List String
deriving DecidableEq

/-- How one `POST /api/map-agent` request is answered. -/
inductive RouteOutcome (α : Type) where
  /-- Served from `RESPONSE_CACHE` (`cacheSource: 'memory'`). -/
  | cachedHit (v : α)
  /-- Served by awaiting another request's inflight promise
  (`cacheSource: 'inflight'`). -/
  | sharedInflight
  /-- This request performed the upstream call itself; on `.error` the
  handler's catch clause turns it into a 500 response. -/
  | fresh (r : Except String α)

/-- The cache-mediation core of `POST` (route.ts lines 212-278) for one
request: check `RESPONSE_CACHE`, then `INFLIGHT_REQUESTS`; otherwise
register the inflight promise, perform the upstream call (its settled
outcome is the `upstream` oracle), delete the inflight registration in the
`finally` clause regardless of outcome, and `setCachedResponse` only after
a successful `await`. -/
def handleAgentRequest {α : Type} (cfg : CacheConfig) (st : ServerState α) (key : String)
    (now : ℤ) (upstream : Except String α) : ServerState α × RouteOutcome α :=
  let looked := getCachedResponse cfg st.cache key now
  match looked.1 with
  | some v => (⟨looked.2, st.inflight⟩, .cachedHit v)
  | none =>
    if key ∈ st.inflight then (⟨looked.2, st.inflight⟩, .sharedInflight)
    else
      match upstream with
      | .ok payload =>
        (⟨setCachedResponse cfg looked.2 key payload now, (st.inflight ++ [key]).erase key⟩,
          .fresh (.ok payload))
      | .error e =>
        (⟨looked.2, (st.inflight ++ [key]).erase key⟩, .fresh (.error e))

/-- Decidable equality for settled `Except` outcomes, used to evaluate the
embedded functions on concrete inputs. -/
instance {ε α : Type} [DecidableEq ε] [DecidableEq α] : DecidableEq (Except ε α)
  | .ok a, .ok b => if h : a = b then .isTrue (by rw [h]) else .isFalse (by simp [h])
  | .ok _, .error _ => .isFalse (by simp)
  | .error _, .ok _ => .isFalse (by simp)
  | .error a, .error b => if h : a = b then .isTrue (by rw [h]) else .isFalse (by simp [h])

/-! ## Geo normalization helpers (src/unnamed/part_011, geo.ts lines 159-174) -/

/-- Constants from src/lib/map/constants.ts. -/
def DEFAULT_NEARBY_RADIUS : ℤ := 1000

/-- Minimum accepted nearby-search radius (meters). -/
def MIN_NEARBY_RADIUS : ℤ := 100

/-- Maximum accepted nearby-search radius (meters). -/
def MAX_NEARBY_RADIUS : ℤ := 50000

/-- JS `Math.round`: round half toward positive infinity. -/
def jsRound (q : ℚ) : ℤ := ⌊q + 1 / 2⌋

/-- `normalizeNearbyRadius` (geo.ts lines 161-166): substitute the default
when the argument is absent or not a finite number (ℚ carries only finite
numbers, so absence models both), otherwise round and clamp to
`[MIN_NEARBY_RADIUS, MAX_NEARBY_RADIUS]`. -/
def normalizeNearbyRadius (radius : Option ℚ) : ℤ :=
  match radius with
  | none => DEFAULT_NEARBY_RADIUS
  | some r => min MAX_NEARBY_RADIUS (max MIN_NEARBY_RADIUS (jsRound r))

/-- `normalizeMinRating` (geo.ts lines 168-174): `null` when absent or not a
finite number, otherwise clamp to `[0, 5]` and round to one decimal. -/
def normalizeMinRating (minRating : Option ℚ) : Option ℚ :=
  match minRating with
  | none => none
  | some r => some ((jsRound (min 5 (max 0 r) * 10) : ℚ) / 10)

/-! ## Nearby-search pipeline (src/lib/map/google-api.ts `fetchNearbyPlaces`, lines 291-374) -/

/-- A latitude/longitude pair (degrees), exact. -/
structure LatLng where
  lat : ℚ
  lng : ℚ
deriving DecidableEq

/-- One element of `GoogleNearbySearchResponse.results` (google-api.ts lines
60-72); every field is optional in the upstream JSON.  `geometry.location`
is flattened into the two optional coordinate fields, and
`photos[0].photo_reference` into `photo_reference`. -/
structure GoogleNearbyItem where
  place_id : Option String
  name : Option String
  vicinity : Option String
  formatted_address : Option String
  rating : Option ℚ
  user_ratings_total : Option ℚ
  business_status : Option String
  open_now : Option Bool
  types : List String
  lat : Option ℚ
  lng : Option ℚ
  photo_reference : Option String
deriving DecidableEq

/-- `GoogleNearbySearchResponse` (google-api.ts lines 57-73). -/
structure GoogleNearbyResponse where
  status : Option String
  error_message : Option String
  results : Option (List GoogleNearbyItem)
deriving DecidableEq

/-- `NearbyPlace` (google-api.ts lines 103-117).  `photoUrl` is omitted: it
is derived from the API key environment and plays no role in the filtering
pipeline. -/
structure NearbyPlace where
  id : String
  name : String
  address : String
  rating : Option ℚ
  userRatingsTotal : Option ℚ
  businessStatus : Option String
  openNow : Option Bool
  types : List String
  lat : ℚ
  lng : ℚ
  distanceMeters : ℚ
  photoReference : Option String
deriving DecidableEq

/-- `NearbySearchResult` (google-api.ts lines 119-126). -/
structure NearbySearchResult where
  radius : ℤ
  minRating : Option ℚ
  rawCount : ℕ
  filteredOutCount : ℕ
  ratingFilteredOutCount : ℕ
  places : List NearbyPlace
deriving DecidableEq

/-- JS `x || fallback` on an optional string: the fallback wins when the
string is absent or empty (falsy). -/
def jsOrStr (o : Option String) (fallback : String) : String :=
  match o with
  | none => fallback
  | some s => if s = "" then fallback else s

/-- JS `String.prototype.trim`: drop leading and trailing whitespace
(written over the character list so that it evaluates by `decide`). -/
def jsTrim (s : String) : String :=
  ⟨(((s.data.dropWhile Char.isWhitespace).reverse).dropWhile Char.isWhitespace).reverse⟩

/-- JS `x?.trim() || null`: trim, and collapse an absent or
whitespace-only string to `null`. -/
def optPresent (o : Option String) : Option String :=
  match o with
  | none => none
  | some s => if jsTrim s = "" then none else some (jsTrim s)

/-- JS `x || null` on an optional string (empty string is falsy). -/
def optFalsy (o : Option String) : Option String :=
  match o with
  | none => none
  | some s => if s = "" then none else some s

/-- The `data.results?.map(...).filter(isFinite)` step of
`fetchNearbyPlaces` (google-api.ts lines 331-352), fused per item: an item
whose coordinates are absent (JS: `?? Number.NaN`, removed by the
`Number.isFinite` filter) produces nothing; otherwise the `NearbyPlace`
fields are populated exactly as in the source.  The JS id fallback appends
a `Math.random()` suffix to the name; the suffix is a constant here, since
ids play no role in any verified property.  `distanceMeters` is set later
by the distance-annotating map. -/
def parseItem (item : GoogleNearbyItem) : Option NearbyPlace :=
  match item.lat, item.lng with
  | some la, some ln =>
    some
      { id := jsOrStr item.place_id (jsOrStr item.name "place" ++ "-x")
        name := jsOrStr item.name "Địa điểm"
        address := jsOrStr item.vicinity (jsOrStr item.formatted_address "Không có địa chỉ")
        rating := item.rating
        userRatingsTotal := item.user_ratings_total
        businessStatus := optFalsy item.business_status
        openNow := item.open_now
        types := item.types
        lat := la
        lng := ln
        distanceMeters := 0
        photoReference := optPresent item.photo_reference }
  | _, _ => none

/-- Error message thrown by `fetchNearbyPlaces` when both `keyword` and
`type` are missing (google-api.ts line 303). -/
def fetchNeedSearchTermMessage : String :=
  "Bạn cần cung cấp ít nhất một điều kiện tìm kiếm: keyword hoặc type."

/-- The distance-annotating map of `fetchNearbyPlaces` (google-api.ts lines
355-357): spread the place and set `distanceMeters` to the recomputed
great-circle distance from the search center. -/
def annotateDistance (dist : LatLng → LatLng → ℚ) (location : LatLng)
    (p : NearbyPlace) : NearbyPlace :=
  { p with distanceMeters := dist location ⟨p.lat, p.lng⟩ }

/-- The comparator of the nearby-search sorts (google-api.ts lines 360 and
364): `(a, b) => a.distanceMeters - b.distanceMeters`, i.e. ascending
distance. -/
def distLE (a b : NearbyPlace) : Prop :=
  a.distanceMeters ≤ b.distanceMeters

instance : DecidableRel distLE :=
  fun a b => inferInstanceAs (Decidable (a.distanceMeters ≤ b.distanceMeters))

instance : IsTrans NearbyPlace distLE :=
  ⟨fun _ _ _ hab hbc => le_trans hab hbc⟩

instance : IsTotal NearbyPlace distLE :=
  ⟨fun a b => le_total a.distanceMeters b.distanceMeters⟩

/-- The rating predicate of `fetchNearbyPlaces` (google-api.ts line 363):
`minRating === null ? true : (place.rating ?? -1) >= minRating`. -/
def ratingPasses (minRating : Option ℚ) (p : NearbyPlace) : Bool :=
  match minRating with
  | none => true
  | some m => decide (m ≤ p.rating.getD (-1))

/-- The parse / strict-radius-filter / rating-filter / sort pipeline of
`fetchNearbyPlaces` (google-api.ts lines 331-373), applied to the
directory's result items with the already-normalized radius and minimum
rating.  Follows the source line by line; JS `Array.prototype.sort` is
stable, and the stable insertion sort produces the identical output. -/
def nearbyPipeline (dist : LatLng → LatLng → ℚ) (location : LatLng) (radius : ℤ)
    (minRating : Option ℚ) (items : List GoogleNearbyItem) : NearbySearchResult :=
  let parsedPlaces := items.filterMap parseItem
  let placesInRadius :=
    ((parsedPlaces.map (annotateDistance dist location)).filter
        (fun p => decide (p.distanceMeters ≤ (radius : ℚ)))).insertionSort distLE
  let places :=
    ((placesInRadius.filter (ratingPasses minRating)).insertionSort distLE)
  ⟨radius, minRating, parsedPlaces.length, parsedPlaces.length - placesInRadius.length,
    placesInRadius.length - places.length, places⟩

/-- `fetchNearbyPlaces` (google-api.ts lines 291-374).  The network fetch is
replaced by the already-parsed upstream response `resp`, and the
great-circle distance function `dist` is a parameter: the source passes
geo.ts `haversineDistanceMeters`, and every property below is proved for an
arbitrary `dist`, hence in particular for the haversine one.  The branches:
missing search term, `ZERO_RESULTS`, non-`OK` status, and the result
pipeline (`nearbyPipeline`). -/
def fetchNearbyPlaces (dist : LatLng → LatLng → ℚ) (location : LatLng)
    (keyword type : Option String) (radiusArg minRatingArg : Option ℚ)
    (resp : GoogleNearbyResponse) : Except String NearbySearchResult :=
  let keywordT := optPresent keyword
  let typeT := optPresent type
  if keywordT = none ∧ typeT = none then .error fetchNeedSearchTermMessage
  else
    let radius := normalizeNearbyRadius radiusArg
    let minRating := normalizeMinRating minRatingArg
    if resp.status = some "ZERO_RESULTS" then
      .ok ⟨radius, minRating, 0, 0, 0, []⟩
    else if resp.status ≠ none ∧ resp.status ≠ some "OK" then
      .error ("Nearby search lỗi: " ++ jsOrStr resp.error_message "Không rõ nguyên nhân")
    else
      .ok (nearbyPipeline dist location radius minRating (resp.results.getD []))

/-! ## Tool layer (src/unnamed/part_012, tools.ts) -/

/-- The argument record of the `nearbySearch` tool (part_012 lines 229-238). -/
structure NearbySearchArgs where
  keyword : Option String
  type : Option String
  radius : Option ℚ
  location : Option String
  minRating : Option ℚ
  limit : Option ℚ
deriving DecidableEq

/-- The effective parameters the `nearbySearch` tool computes from its
arguments before calling its collaborators (part_012 lines 240-247). -/
structure NearbyEffectiveParams where
  keyword : Option String
  type : Option String
  radius : Option ℚ
  minRating : Option ℚ
  requestedLimit : Option ℕ
deriving DecidableEq

/-- `MAX_REQUESTED_NEARBY_RESULTS` (part_012 line 47). -/
def MAX_REQUESTED_NEARBY_RESULTS : ℕ := 200

/-- `normalizeNearbyLimit` (part_012 lines 58-72): floor, reject
non-positive or non-numeric values, cap at `MAX_REQUESTED_NEARBY_RESULTS`.
(The string-to-number coercion branch is folded into the optional numeric
argument.) -/
def normalizeNearbyLimit (limit : Option ℚ) : Option ℕ :=
  match limit with
  | none => none
  | some q =>
    let rounded := ⌊q⌋
    if rounded ≤ 0 then none else some (min MAX_REQUESTED_NEARBY_RESULTS rounded.toNat)

/-- The missing-search-term error thrown by the `nearbySearch` tool
(part_012 lines 251-255, tools.ts lines 228-232). -/
def nearbyNeedSearchTermMessage : String :=
  "Bạn chưa nêu rõ cần tìm gì lân cận. Hãy nói thêm từ khóa hoặc loại địa điểm (ví dụ: bãi gửi xe, quán cà phê)."

/-- The argument-normalization prefix of the `nearbySearch` tool (part_012
lines 240-255; identically tools.ts lines 218-232): trim the keyword,
collapse falsy values, and throw the missing-search-term error when both
the effective keyword and the effective type are absent.  The function
reads nothing but its arguments — in particular no stored conversation
context (`mapState.lastNearbySearchContext` is declared in the state store
but never read or written anywhere in the repository).  The remainder of
the tool (center resolution, directory call, rendering) is reached only on
`.ok` and involves only the collaborators, so this prefix decides the
context-reuse behaviour. -/
def nearbySearch (args : NearbySearchArgs) : Except String NearbyEffectiveParams :=
  let keyword := optPresent args.keyword
  let ty := optFalsy args.type
  if keyword = none ∧ ty = none then .error nearbyNeedSearchTermMessage
  else .ok ⟨keyword, ty, args.radius, args.minRating, normalizeNearbyLimit args.limit⟩

/-- `ToolResult` (src/unnamed/part_007): the `data` payload field is
carried opaquely by the individual tools and plays no role in the
dispatcher, so only the `success` flag and the user-facing message are
modelled. -/
structure ToolResult where
  success : Bool
  message : String
deriving DecidableEq

/-- The message for an unknown tool name (part_012 line 563). -/
def unsupportedToolMessage (toolName : String) : String :=
  "Không hỗ trợ công cụ \"" ++ toolName ++ "\"."

/-- The message produced by the dispatcher's catch clause (part_012 lines
569-573); a non-`Error` throwable is reported as the fixed unknown-error
text, which the `Except String` model folds into the carried message. -/
def toolErrorMessage (toolName msg : String) : String :=
  "Công cụ \"" ++ toolName ++ "\" gặp lỗi: " ++ msg

/-- `executeTool` (part_012 lines 556-574, tools.ts lines 455-473).  The
`TOOL_EXECUTORS` table lookup is the `executors` parameter (a `none` result
is JS `undefined` for an unknown name); each tool implementation is an
oracle from its arguments to a settled outcome, `.error` being a thrown
exception or rejected promise.  The returned `Except` is the promise
returned to the caller: `.error` would be a rejection. -/
def executeTool {Args : Type} (executors : String → Option (Args → Except String ToolResult))
    (toolName : String) (args : Args) : Except String ToolResult :=
  match executors toolName with
  | none => .ok ⟨false, unsupportedToolMessage toolName⟩
  | some executor =>
    match executor args with
    | .ok r => .ok r
    | .error e => .ok ⟨false, toolErrorMessage toolName e⟩

/-! ## Google polyline decoder (src/unnamed/part_011, geo.ts lines 75-112) -/

/-- The inner `do ... while (byte >= 0x20)` chunk loop of
`decodeGooglePolyline`, operating on the remaining character codes.  Each
step reads one code, subtracts 63, ors the low five bits shifted by the
running shift into the accumulator, and continues while the continuation
bit (0x20) is set.  Reading past the end of the string gives `NaN` in JS:
`NaN & 0x1f` contributes `0` and `NaN >= 0x20` is false, so the loop leaves
the accumulator unchanged and exits — modelled by the `[]` case.  Returns
the accumulated value and the unconsumed suffix. -/
def decodeChunks : List ℤ → ℤ → ℕ → ℤ × List ℤ
  | [], result, _ => (result, [])
  | c :: rest, result, shift =>
    let byte := c - 63
    let result' := Int.lor result ((Int.land byte 31) <<< (shift : ℤ))
    if 32 ≤ byte then decodeChunks rest result' (shift + 5) else (result', rest)

/-- The signed-delta post-processing of one varint: `result & 1 ?
~(result >> 1) : result >> 1` (geo.ts lines 93 and 105).  JS `>>` is the
arithmetic shift and `~` the two's-complement not, both of which agree with
the `Int` operations for the values a decoded chunk accumulator takes. -/
def decodeDelta (result : ℤ) : ℤ :=
  if Int.land result 1 = 1 then ~~~(result >>> 1) else result >>> 1

/-- The outer `while (index < encoded.length)` loop of
`decodeGooglePolyline`: decode a latitude delta and a longitude delta,
accumulate them, emit `[lng / 1e5, lat / 1e5]`, and continue on the
unconsumed suffix. -/
def decodeCoords : List ℤ → ℤ → ℤ → List (ℚ × ℚ)
  | [], _, _ => []
  | c :: rest, lat, lng =>
    let r₁ := decodeChunks (c :: rest) 0 0
    let lat' := lat + decodeDelta r₁.1
    let r₂ := decodeChunks r₁.2 0 0
    let lng' := lng + decodeDelta r₂.1
    ((lng' : ℚ) / 100000, (lat' : ℚ) / 100000) :: decodeCoords r₂.2 lat' lng'
termination_by l => l.length
decreasing_by
  have h₁ : (decodeChunks (c :: rest) 0 0).2.length ≤ rest.length := by
    clear r₁ lat' r₂ lng'
    generalize (0 : ℤ) = r
    generalize (0 : ℕ) = s
    induction rest generalizing r s c with
    | nil =>
      simp only [decodeChunks]
      split <;> simp [decodeChunks]
    | cons d ds ih =>
      simp only [decodeChunks]
      split
      · exact Nat.le_trans (ih _ _ _) (Nat.le_succ _)
      · simp
  have h₂ : (decodeChunks (decodeChunks (c :: rest) 0 0).2 0 0).2.length ≤
      (decodeChunks (c :: rest) 0 0).2.length := by
    generalize (decodeChunks (c :: rest) 0 0).2 = l
    generalize (0 : ℤ) = r
    generalize (0 : ℕ) = s
    induction l generalizing r s with
    | nil => simp [decodeChunks]
    | cons d ds ih =>
      simp only [decodeChunks]
      split
      · exact Nat.le_trans (ih _ _) (Nat.le_succ _)
      · simp
  simp only [List.length_cons]
  omega

/-- `decodeGooglePolyline` (geo.ts lines 75-112) on the character codes of
the encoded string, starting from accumulators `lat = lng = 0`. -/
def decodeGooglePolyline (encoded : List ℤ) : List (ℚ × ℚ) :=
  decodeCoords encoded 0 0

/-- Modelled from the spec (§4.2 `decodePolyline`): the standard
fixed-precision polyline chunking of a non-negative value — base-32 digits,
little-endian, each continuation digit tagged with 0x20, each code offset
by 63.  This is the reference encoder the decoder is proved to invert. -/
def encodeChunksN (t : ℕ) : List ℕ :=
  if t < 32 then [t + 63] else (32 + t % 32 + 63) :: encodeChunksN (t / 32)
decreasing_by
  exact Nat.div_lt_self (by omega) (by omega)

/-- Modelled from the spec (§4.2): the signed-delta transform of the
standard encoding — shift left one bit, complement when negative — then
chunk. -/
def encodeSigned (v : ℤ) : List ℕ :=
  encodeChunksN (if v < 0 then (-(2 * v) - 1).toNat else (2 * v).toNat)

/-- Modelled from the spec (§4.2): encode a sequence of (lat, lng) pairs
given in fixed-precision 1e5 units as consecutive signed deltas, latitude
first, against the running previous point. -/
def encodePolyline : List (ℤ × ℤ) → ℤ → ℤ → List ℕ
  | [], _, _ => []
  | (la, ln) :: rest, prevLat, prevLng =>
    encodeSigned (la - prevLat) ++ encodeSigned (ln - prevLng) ++ encodePolyline rest la ln

/-- The character codes of an encoded polyline, as the ℤ values
`charCodeAt` yields. -/
def natCodes (l : List ℕ) : List ℤ := List.map (fun c : ℕ => (c : ℤ)) l

/-! ## Buffer geometry over ℝ (src/unnamed/part_011, geo.ts lines 17-71) -/

/-- `EARTH_RADIUS_M` (constants.ts line 44). -/
def EARTH_RADIUS_M : ℝ := 6378137

/-- `BUFFER_SEGMENTS` (constants.ts line 45). -/
def BUFFER_SEGMENTS : ℕ := 72

/-- A latitude/longitude pair over ℝ for the trigonometric geometry. -/
structure RealLatLng where
  lat : ℝ
  lng : ℝ

/-- `toRadians` (geo.ts line 19). -/
noncomputable def toRadians (deg : ℝ) : ℝ := deg * Real.pi / 180

/-- `toDegrees` (geo.ts line 23). -/
noncomputable def toDegrees (rad : ℝ) : ℝ := rad * 180 / Real.pi

/-- JS `Math.atan2(y, x)`: the argument of the complex number `x + y i`,
in `(-π, π]`, with `atan2(0, 0) = 0`. -/
noncomputable def atan2 (y x : ℝ) : ℝ := Complex.arg ⟨x, y⟩

/-- `haversineDistanceMeters` (geo.ts lines 29-41): great-circle distance
on the sphere of radius `EARTH_RADIUS_M`. -/
noncomputable def haversineDistanceMeters (from' to' : RealLatLng) : ℝ :=
  let lat1 := toRadians from'.lat
  let lat2 := toRadians to'.lat
  let dLat := toRadians (to'.lat - from'.lat)
  let dLng := toRadians (to'.lng - from'.lng)
  let a := Real.sin (dLat / 2) ^ 2 +
    Real.cos lat1 * Real.cos lat2 * Real.sin (dLng / 2) ^ 2
  let c := 2 * atan2 (Real.sqrt a) (Real.sqrt (1 - a))
  EARTH_RADIUS_M * c

/-- The trigonometric library the geometry calls into. `geo.ts` calls the
host `Math` object (`Math.sin`, `Math.cos`, `Math.asin`, `Math.atan2`),
whose IEEE-double implementations only approximate the exact functions
(in particular `Math.sin(2 * Math.PI)` is not `0`), so the library is a
collaborator parameter: `exactTrig` below instantiates it with the exact
real functions, and `floatTrig` records the one documented double value
that breaks ring closure. -/
structure TrigLib where
  sin : ℝ → ℝ
  cos : ℝ → ℝ
  asin : ℝ → ℝ
  atan2 : ℝ → ℝ → ℝ

/-- The body of the `for` loop of `buildBufferCoordinates` (geo.ts lines
54-68): the spherical destination point at angular distance
`radiusMeters / EARTH_RADIUS_M` and bearing `2πi/segments` from the
center, as a `[lng, lat]` degree pair, computed through the trig library
`T` standing for the host `Math` object. -/
noncomputable def bufferPoint (T : TrigLib) (center : RealLatLng) (radiusMeters : ℝ)
    (segments : ℕ) (i : ℕ) : ℝ × ℝ :=
  let angularDistance := radiusMeters / EARTH_RADIUS_M
  let centerLatRad := toRadians center.lat
  let centerLngRad := toRadians center.lng
  let bearing := 2 * Real.pi * i / segments
  let sinLat := T.sin centerLatRad * T.cos angularDistance +
    T.cos centerLatRad * T.sin angularDistance * T.cos bearing
  let latRad := T.asin sinLat
  let lngRad := centerLngRad +
    T.atan2 (T.sin bearing * T.sin angularDistance * T.cos centerLatRad)
      (T.cos angularDistance - T.sin centerLatRad * T.sin latRad)
  (toDegrees lngRad, toDegrees latRad)

/-- `buildBufferCoordinates` (geo.ts lines 45-71): the loop runs
`i = 0 .. segments` inclusive, pushing one destination point per index.
The source fixes `segments = BUFFER_SEGMENTS`; it is kept as a parameter
so the ring shape is established for every segment count. -/
noncomputable def buildBufferCoordinates (T : TrigLib) (center : RealLatLng)
    (radiusMeters : ℝ) (segments : ℕ) : List (ℝ × ℝ) :=
  (List.range (segments + 1)).map (bufferPoint T center radiusMeters segments)

/-- The idealized instantiation of the trig library: the exact real
functions, with `atan2` as the complex argument. -/
noncomputable def exactTrig : TrigLib := ⟨Real.sin, Real.cos, Real.arcsin, atan2⟩

/-- `Math.sin` as the IEEE-double library computes it at the one argument
ring closure depends on: `Math.sin(2 * Math.PI)` evaluates to
`-2.4492935982947064e-16`, not `0` (the bearing at the last ring index is
`2π` while the bearing at index `0` is `0`, where `Math.sin` returns `0`
exactly). Away from `2π` this model keeps the exact value, which only
makes it harder to break closure. -/
noncomputable def flSin (x : ℝ) : ℝ :=
  haveI := Classical.propDecidable (x = 2 * Real.pi)
  if x = 2 * Real.pi then -(24492935982947064 : ℝ) / 10 ^ 32 else Real.sin x

/-- The trig library with `Math.sin`'s documented double value at `2π`. -/
noncomputable def floatTrig : TrigLib := ⟨flSin, Real.cos, Real.arcsin, atan2⟩

/-! ## Concrete inputs for the nearby-search scenario (spec §8 example) -/

/-- A distance oracle for the scenario: meters proportional to the latitude
difference, exact on the scenario's coordinates. -/
def distC7 : LatLng → LatLng → ℚ := fun a b => (b.lat - a.lat) * 100000

/-- The scenario center (10.7769, 106.7009). -/
def centerC7 : LatLng := ⟨10.7769, 106.7009⟩

/-- A scenario directory item at the given latitude. -/
def itemC7 (pid nm : String) (la : ℚ) : GoogleNearbyItem :=
  ⟨some pid, some nm, none, none, none, none, none, none, [], some la, some 106.7009, none⟩

/-- The scenario directory response: 8 candidates at distances
300, 700, 100, 800, 450, 200, 600, 400 meters from the center — 3 of them
beyond the 500 m radius. -/
def respC7 : GoogleNearbyResponse :=
  ⟨some "OK", none, some
    [itemC7 "p1" "P1" 10.7799, itemC7 "p2" "P2" 10.7839, itemC7 "p3" "P3" 10.7779,
      itemC7 "p4" "P4" 10.7849, itemC7 "p5" "P5" 10.7814, itemC7 "p6" "P6" 10.7789,
      itemC7 "p7" "P7" 10.7829, itemC7 "p8" "P8" 10.7809]⟩

/-- A parsed scenario place at the given latitude and distance. -/
def placeC7 (pid nm : String) (la d : ℚ) : NearbyPlace :=
  ⟨pid, nm, "Không có địa chỉ", none, none, none, none, [], la, 106.7009, d, none⟩

/-- The scenario result: rawCount 8, 3 filtered out by radius, no rating
filter, and the 5 in-radius places in ascending-distance order. -/
def resC7 : NearbySearchResult :=
  ⟨500, none, 8, 3, 0,
    [placeC7 "p3" "P3" 10.7779 100, placeC7 "p6" "P6" 10.7789 200,
      placeC7 "p1" "P1" 10.7799 300, placeC7 "p8" "P8" 10.7809 400,
      placeC7 "p5" "P5" 10.7814 450]⟩

/-- A directory item with a rating, for the minimum-rating scenario. -/
def itemC6 (pid : String) (rating : Option ℚ) (la : ℚ) : GoogleNearbyItem :=
  ⟨some pid, some pid, none, none, rating, none, none, none, [], some la, some 106, none⟩

/-- A minimum-rating scenario response: candidates rated 4.5, 3, and
unrated, all within the default radius. -/
def respC6 : GoogleNearbyResponse :=
  ⟨some "OK", none, some
    [itemC6 "a1" (some 4.5) 10.001, itemC6 "a2" (some 3) 10.002, itemC6 "a3" none 10.003]⟩

/-- The minimum-rating scenario result with `minRating = 4`: only the
4.5-rated candidate survives; the 3-rated and the unrated candidates are
removed by the rating filter. -/
def resC6 : NearbySearchResult :=
  ⟨1000, some 4, 3, 0, 2,
    [⟨"a1", "a1", "Không có địa chỉ", some 4.5, none, none, none, [], 10.001, 106, 100, none⟩]⟩

/-- A directory response whose single result carries no coordinates: the
parse step drops it, so `rawCount` undercounts the directory's results. -/
def respNoCoords : GoogleNearbyResponse :=
  ⟨some "OK", none, some
    [⟨none, some "A", none, none, none, none, none, none, [], none, none, none⟩]⟩

/-! ## Association-list map lemmas -/

theorem mapGet_mapSet_self {α : Type} (c : Cache α) (k : String) (e : CacheEntry α) :
    mapGet (mapSet c k e) k = some e := by
  induction c with
  | nil => simp [mapSet, mapGet]
  | cons hd tl ih =>
    obtain ⟨k', e'⟩ := hd
    by_cases h : k' = k
    · simp [mapSet, mapGet, h]
    · simp [mapSet, mapGet, h, ih]

theorem mapSet_length_le {α : Type} (c : Cache α) (k : String) (e : CacheEntry α) :
    (mapSet c k e).length ≤ c.length + 1 := by
  induction c with
  | nil => simp [mapSet]
  | cons hd tl ih =>
    obtain ⟨k', e'⟩ := hd
    by_cases h : k' = k
    · simp [mapSet, h]
    · simp only [mapSet, if_neg h, List.length_cons]
      omega

theorem mem_mapSet_of_ne {α : Type} {c : Cache α} {k : String} {e : CacheEntry α}
    {p : String × CacheEntry α} (hp : p ∈ mapSet c k e) (hne : p.1 ≠ k) : p ∈ c := by
  induction c with
  | nil =>
    simp [mapSet] at hp
    exact absurd (by simp [hp]) hne
  | cons hd tl ih =>
    obtain ⟨k', e'⟩ := hd
    by_cases h : k' = k
    · simp only [mapSet, if_pos h] at hp
      rcases List.mem_cons.mp hp with h1 | h1
      · exact absurd (by simp [h1]) hne
      · exact List.mem_cons_of_mem _ h1
    · simp only [mapSet, if_neg h] at hp
      rcases List.mem_cons.mp hp with h1 | h1
      · exact h1 ▸ List.mem_cons_self _ _
      · exact List.mem_cons_of_mem _ (ih h1)

theorem mapSet_mem_of_mem_ne {α : Type} {c : Cache α} {k : String} {e : CacheEntry α}
    {p : String × CacheEntry α} (hp : p ∈ c) (hne : p.1 ≠ k) : p ∈ mapSet c k e := by
  induction c with
  | nil => simp at hp
  | cons hd tl ih =>
    obtain ⟨k', e'⟩ := hd
    rcases List.mem_cons.mp hp with h1 | h1
    · by_cases h : k' = k
      · exact absurd (by rw [h1, h]) hne
      · simp only [mapSet, if_neg h]
        exact h1 ▸ List.mem_cons_self _ _
    · by_cases h : k' = k
      · simp only [mapSet, if_pos h]
        exact List.mem_cons_of_mem _ h1
      · simp only [mapSet, if_neg h]
        exact List.mem_cons_of_mem _ (ih h1)

theorem mapDelete_length {α : Type} {c : Cache α} {k : String} {e : CacheEntry α}
    (h : mapGet c k = some e) : (mapDelete c k).length + 1 = c.length := by
  induction c with
  | nil => simp [mapGet] at h
  | cons hd tl ih =>
    obtain ⟨k', e'⟩ := hd
    by_cases hk : k' = k
    · simp [mapDelete, hk]
    · simp only [mapGet, if_neg hk] at h
      simp only [mapDelete, if_neg hk, List.length_cons]
      rw [← ih h]

theorem mapGet_mapDelete_self {α : Type} {c : Cache α} {k : String}
    (hnd : nodupKeys c) : mapGet (mapDelete c k) k = none := by
  induction c with
  | nil => simp [mapDelete, mapGet]
  | cons hd tl ih =>
    obtain ⟨k', e'⟩ := hd
    have hnd' : nodupKeys tl := (List.nodup_cons.mp hnd).2
    by_cases hk : k' = k
    · simp only [mapDelete, if_pos hk]
      have hknot : k ∉ tl.map Prod.fst := hk ▸ (List.nodup_cons.mp hnd).1
      clear ih hnd hnd' hk
      induction tl with
      | nil => simp [mapGet]
      | cons hd2 tl2 ih2 =>
        obtain ⟨k2, e2⟩ := hd2
        simp only [List.map_cons, List.mem_cons] at hknot
        push_neg at hknot
        simp only [mapGet, if_neg (Ne.symm hknot.1)]
        exact ih2 hknot.2
    · simp only [mapDelete, if_neg hk, mapGet, if_neg hk]
      exact ih hnd'

/-! ## Prune lemmas -/

theorem mem_pruneCache {α : Type} {cfg : CacheConfig} {c : Cache α} {now : ℤ}
    {p : String × CacheEntry α} (hp : p ∈ pruneCache cfg c now) :
    p ∈ c ∧ now < p.2.expiresAt := by
  unfold pruneCache at hp
  dsimp only at hp
  split at hp
  · have := List.mem_filter.mp hp
    refine ⟨this.1, ?_⟩
    have h2 := this.2
    simp at h2
    omega
  · have h1 := (List.mem_filter.mp hp).1
    have := List.mem_filter.mp h1
    refine ⟨this.1, ?_⟩
    have h2 := this.2
    simp at h2
    omega

theorem nodupKeys_filter {α : Type} (c : Cache α) (f : String × CacheEntry α → Bool)
    (hnd : nodupKeys c) : nodupKeys (c.filter f) :=
  ((List.filter_sublist c).map Prod.fst).nodup hnd

theorem pruneCache_length_le {α : Type} (cfg : CacheConfig) (c : Cache α) (now : ℤ)
    (hnd : nodupKeys c) : (pruneCache cfg c now).length ≤ cfg.maxEntries := by
  unfold pruneCache
  dsimp only
  split
  · omega
  · rename_i hover
    push_neg at hover
    set survivors := c.filter (fun p => !decide (p.2.expiresAt ≤ now)) with hsurv
    set entriesByAge := sortByCreatedAt survivors with hages
    set rc := survivors.length - cfg.maxEntries with hrc
    set victims := (entriesByAge.take rc).map Prod.fst with hvict
    have hperm : List.Perm entriesByAge survivors := List.perm_insertionSort _ survivors
    have hndsurv : nodupKeys survivors := nodupKeys_filter c _ hnd
    have hndages : nodupKeys entriesByAge := by
      unfold nodupKeys
      exact ((hperm.map Prod.fst).nodup_iff).mpr hndsurv
    have hsplit : entriesByAge.take rc ++ entriesByAge.drop rc = entriesByAge :=
      List.take_append_drop rc entriesByAge
    have hdisj : List.Disjoint ((entriesByAge.take rc).map Prod.fst)
        ((entriesByAge.drop rc).map Prod.fst) := by
      apply List.disjoint_of_nodup_append
      rw [← List.map_append, hsplit]
      exact hndages
    have hlenEq : (survivors.filter (fun p => !victims.contains p.1)).length =
        (entriesByAge.filter (fun p => !victims.contains p.1)).length :=
      (hperm.filter _).symm.length_eq
    rw [hlenEq, ← hsplit, List.filter_append]
    have htake : (entriesByAge.take rc).filter (fun p => !victims.contains p.1) = [] := by
      rw [List.filter_eq_nil_iff]
      intro p hp
      simp only [Bool.not_eq_true', Bool.not_eq_false]
      have : p.1 ∈ victims := List.mem_map_of_mem Prod.fst hp
      simpa using this
    have hdrop : (entriesByAge.drop rc).filter (fun p => !victims.contains p.1) =
        entriesByAge.drop rc := by
      rw [List.filter_eq_self]
      intro p hp
      have : p.1 ∉ victims := by
        intro hmem
        exact hdisj hmem (List.mem_map_of_mem Prod.fst hp)
      simpa using this
    rw [htake, hdrop]
    have hlen : entriesByAge.length = survivors.length := hperm.length_eq
    simp only [List.nil_append, List.length_drop]
    omega

theorem pruneCache_oldest_first {α : Type} {cfg : CacheConfig} {c : Cache α} {now : ℤ}
    (hnd : nodupKeys c) {p q : String × CacheEntry α}
    (hp : p ∈ c) (hexp : now < p.2.expiresAt) (hnot : p ∉ pruneCache cfg c now)
    (hq : q ∈ pruneCache cfg c now) : p.2.createdAt ≤ q.2.createdAt := by
  unfold pruneCache at hnot hq
  dsimp only at hnot hq
  set survivors := c.filter (fun p => !decide (p.2.expiresAt ≤ now)) with hsurv
  have hpsurv : p ∈ survivors := by
    rw [hsurv]
    refine List.mem_filter.mpr ⟨hp, ?_⟩
    simp
    omega
  by_cases hcond : survivors.length ≤ cfg.maxEntries
  · rw [if_pos hcond] at hnot
    exact absurd hpsurv hnot
  · rw [if_neg hcond] at hnot hq
    push_neg at hcond
    set entriesByAge := sortByCreatedAt survivors with hages
    set rc := survivors.length - cfg.maxEntries with hrc
    set victims := (entriesByAge.take rc).map Prod.fst with hvict
    have hperm : List.Perm entriesByAge survivors := List.perm_insertionSort _ survivors
    have hndsurv : nodupKeys survivors := nodupKeys_filter c _ hnd
    have hndages : nodupKeys entriesByAge := by
      unfold nodupKeys
      exact ((hperm.map Prod.fst).nodup_iff).mpr hndsurv
    have hsplit : entriesByAge.take rc ++ entriesByAge.drop rc = entriesByAge :=
      List.take_append_drop rc entriesByAge
    have hdisj : List.Disjoint ((entriesByAge.take rc).map Prod.fst)
        ((entriesByAge.drop rc).map Prod.fst) := by
      apply List.disjoint_of_nodup_append
      rw [← List.map_append, hsplit]
      exact hndages
    have hpv : p.1 ∈ victims := by
      by_contra hpv
      exact hnot (List.mem_filter.mpr ⟨hpsurv, by simpa using hpv⟩)
    have hqs := List.mem_filter.mp hq
    have hqv : q.1 ∉ victims := by
      have := hqs.2
      simpa using this
    have hpage : p ∈ entriesByAge := hperm.mem_iff.mpr hpsurv
    have hqage : q ∈ entriesByAge := hperm.mem_iff.mpr hqs.1
    have hptake : p ∈ entriesByAge.take rc := by
      rcases (List.mem_append.mp (hsplit ▸ hpage)) with h | h
    
      · exact h
      · exact absurd (List.mem_map_of_mem Prod.fst h) (fun hm => hdisj hpv hm)
    have hqdrop : q ∈ entriesByAge.drop rc := by
      rcases (List.mem_append.mp (hsplit ▸ hqage)) with h | h
      · exact absurd (List.mem_map_of_mem Prod.fst h) hqv
      · exact h
    have hsort : entriesByAge.Pairwise createdAtLE := by
      rw [hages]
      unfold sortByCreatedAt
      exact List.sorted_insertionSort createdAtLE survivors
    exact (List.pairwise_append.mp (hsplit ▸ hsort)).2.2 p hptake q hqdrop

/-! ## Cache claim theorems -/

theorem erase_append_singleton {l : List String} {a : String} (h : a ∉ l) :
    (l ++ [a]).erase a = l := by
  induction l with
  | nil => simp
  | cons x xs ih =>
    simp only [List.mem_cons, not_or] at h
    have hx : (x == a) = false := beq_eq_false_iff_ne.mpr (fun hxa => h.1 hxa.symm)
    rw [List.cons_append, List.erase_cons, if_neg (by simp [hx]), ih h.2]

theorem getCachedResponse_disabled {α : Type} {cfg : CacheConfig} (c : Cache α)
    (key : String) (now : ℤ) (hcond : cfg.enabled = false ∨ cfg.ttlMs ≤ 0) :
    getCachedResponse cfg c key now = (none, c) := by
  unfold getCachedResponse
  rw [if_pos hcond]

theorem getCachedResponse_none_again {α : Type} (cfg : CacheConfig) (c : Cache α)
    (key : String) (now : ℤ) (hnd : nodupKeys c)
    (h : (getCachedResponse cfg c key now).1 = none) :
    (getCachedResponse cfg ((getCachedResponse cfg c key now).2) key now).1 = none := by
  by_cases hcond : cfg.enabled = false ∨ cfg.ttlMs ≤ 0
  · simp [getCachedResponse_disabled _ _ _ hcond]
  · cases hm : mapGet c key with
    | none =>
      have hsnd : (getCachedResponse cfg c key now).2 = c := by
        unfold getCachedResponse
        rw [if_neg hcond, hm]
      rw [hsnd]
      exact h
    | some e =>
      by_cases hexp : e.expiresAt ≤ now
      · have hsnd : (getCachedResponse cfg c key now).2 = mapDelete c key := by
          unfold getCachedResponse
          rw [if_neg hcond, hm]
          dsimp only
          rw [if_pos hexp]
        rw [hsnd]
        unfold getCachedResponse
        rw [if_neg hcond, mapGet_mapDelete_self hnd]
      · exfalso
        have hfst : (getCachedResponse cfg c key now).1 = some e.value := by
          unfold getCachedResponse
          rw [if_neg hcond, hm]
          dsimp only
          rw [if_neg hexp]
        rw [hfst] at h
        cases h

/-- C5: with caching enabled and a positive TTL, `getCachedResponse` returns
absent exactly when no entry exists for the key or the entry's `expiresAt`
has passed; in the expired case the stale entry is deleted as a side effect
(the cache's size decreases by one); in the non-expired case it returns
exactly the entry's value and leaves the cache unchanged; and a lookup
following a `setCachedResponse` of the same key, before the stored entry's
TTL has elapsed, returns exactly the stored value. -/
theorem getCachedResponse_spec {α : Type} (cfg : CacheConfig) (c : Cache α) (key : String)
    (now : ℤ) (hen : cfg.enabled = true) (httl : 0 < cfg.ttlMs) :
    ((getCachedResponse cfg c key now).1 = none ↔
      mapGet c key = none ∨ ∃ e, mapGet c key = some e ∧ e.expiresAt ≤ now) ∧
    (∀ e, mapGet c key = some e → e.expiresAt ≤ now →
      ((getCachedResponse cfg c key now).2).length + 1 = c.length) ∧
    (∀ e, mapGet c key = some e → now < e.expiresAt →
      (getCachedResponse cfg c key now).1 = some e.value ∧
        (getCachedResponse cfg c key now).2 = c) ∧
    (∀ (v : α) (t : ℤ), now < t + cfg.ttlMs →
      (getCachedResponse cfg (setCachedResponse cfg c key v t) key now).1 = some v) := by
  have hcond : ¬(cfg.enabled = false ∨ cfg.ttlMs ≤ 0) := by
    simp [hen]
    omega
  refine ⟨?_, ?_, ?_, ?_⟩
  · unfold getCachedResponse
    rw [if_neg hcond]
    cases hm : mapGet c key with
    | none => simp
    | some e =>
      by_cases hexp : e.expiresAt ≤ now
      · simp [hexp]
      · simp [hexp]
  · intro e hm hexp
    unfold getCachedResponse
    rw [if_neg hcond, hm]
    dsimp only
    rw [if_pos hexp]
    exact mapDelete_length hm
  · intro e hm hexp
    unfold getCachedResponse
    rw [if_neg hcond, hm]
    dsimp only
    rw [if_neg (by omega : ¬ e.expiresAt ≤ now)]
    exact ⟨rfl, rfl⟩
  · intro v t hlt
    have hset : setCachedResponse cfg c key v t =
        mapSet (pruneCache cfg c t) key ⟨v, t, t + cfg.ttlMs⟩ := by
      unfold setCachedResponse
      rw [if_neg hcond]
    rw [hset]
    unfold getCachedResponse
    rw [if_neg hcond, mapGet_mapSet_self]
    dsimp only
    rw [if_neg (by omega : ¬ t + cfg.ttlMs ≤ now)]

/-- C5 witness: a concrete enabled configuration with a stored, unexpired
entry, instantiating `getCachedResponse_spec`; the non-expired branch
returns the stored value. -/
theorem getCachedResponse_spec_witness :
    (getCachedResponse ⟨true, 100, 10⟩ [("k", (⟨7, 0, 50⟩ : CacheEntry ℕ))] "k" 10).1 =
      some (7 : ℕ) ∧
    (getCachedResponse ⟨true, 100, 10⟩ [("k", (⟨7, 0, 50⟩ : CacheEntry ℕ))] "k" 10).2 =
      [("k", (⟨7, 0, 50⟩ : CacheEntry ℕ))] :=
  (getCachedResponse_spec ⟨true, 100, 10⟩ [("k", ⟨7, 0, 50⟩)] "k" 10 rfl (by decide)).2.2.1
    ⟨7, 0, 50⟩ (by decide) (by decide)

/-- C4 counterexample: the claim says a store never leaves more than
`maxEntries` entries in the cache.  With `maxEntries = 1`, one unexpired
entry already stored, and a fresh key, `pruneCache` (which only evicts down
to `maxEntries`, not below) removes nothing and the insert leaves 2
entries. -/
theorem setCachedResponse_cap_counterexample :
    ¬ ((setCachedResponse ⟨true, 1000, 1⟩ [("a", (⟨0, 0, 10⟩ : CacheEntry ℕ))] "b" 0 5).length ≤
      (⟨true, 1000, 1⟩ : CacheConfig).maxEntries) := by
  decide

/-- C4 (amended): with caching enabled and a positive TTL, on a cache with
distinct keys, `setCachedResponse` first removes all expired entries, then
evicts oldest-`createdAt`-first until the size is at most (not strictly
under) the configured maximum, and only then inserts the new entry with
`createdAt = now` and `expiresAt = now + TTL`; consequently after a store
the cache holds at most `maxEntries + 1` entries (it can hold exactly
`maxEntries + 1`, as the counterexample shows).  Conjuncts: the size bound;
the inserted entry with its timestamps; every other surviving entry is an
unexpired entry of the original cache; and eviction is oldest-first — every
unexpired original entry that was evicted is no younger than every
surviving one. -/
theorem setCachedResponse_spec {α : Type} (cfg : CacheConfig) (c : Cache α) (key : String)
    (v : α) (now : ℤ) (hen : cfg.enabled = true) (httl : 0 < cfg.ttlMs)
    (hnd : nodupKeys c) :
    (setCachedResponse cfg c key v now).length ≤ cfg.maxEntries + 1 ∧
    mapGet (setCachedResponse cfg c key v now) key = some ⟨v, now, now + cfg.ttlMs⟩ ∧
    (∀ p ∈ setCachedResponse cfg c key v now, p.1 ≠ key → p ∈ c ∧ now < p.2.expiresAt) ∧
    (∀ p ∈ c, now < p.2.expiresAt → p.1 ≠ key → p ∉ setCachedResponse cfg c key v now →
      ∀ q ∈ setCachedResponse cfg c key v now, q.1 ≠ key →
        p.2.createdAt ≤ q.2.createdAt) := by
  have hcond : ¬(cfg.enabled = false ∨ cfg.ttlMs ≤ 0) := by
    simp [hen]
    omega
  have hset : setCachedResponse cfg c key v now =
      mapSet (pruneCache cfg c now) key ⟨v, now, now + cfg.ttlMs⟩ := by
    unfold setCachedResponse
    rw [if_neg hcond]
  rw [hset]
  refine ⟨?_, mapGet_mapSet_self _ _ _, ?_, ?_⟩
  · calc (mapSet (pruneCache cfg c now) key ⟨v, now, now + cfg.ttlMs⟩).length
        ≤ (pruneCache cfg c now).length + 1 := mapSet_length_le _ _ _
      _ ≤ cfg.maxEntries + 1 := by
          have := pruneCache_length_le cfg c now hnd
          omega
  · intro p hp hne
    exact mem_pruneCache (mem_mapSet_of_ne hp hne)
  · intro p hp hexp hne hnot q hq hqne
    have hpnot : p ∉ pruneCache cfg c now := fun hmem => hnot (mapSet_mem_of_mem_ne hmem hne)
    have hqmem : q ∈ pruneCache cfg c now := mem_mapSet_of_ne hq hqne
    exact pruneCache_oldest_first hnd hp hexp hpnot hqmem

/-- C4 witness: concrete instantiation of the amended store specification
(`maxEntries = 2`, one unexpired entry, fresh key): the size bound holds
and the new entry is present with its timestamps. -/
theorem setCachedResponse_spec_witness :
    (setCachedResponse ⟨true, 100, 2⟩ [("a", (⟨1, 0, 50⟩ : CacheEntry ℕ))] "b" 5 10).length ≤
      3 ∧
    mapGet (setCachedResponse ⟨true, 100, 2⟩ [("a", (⟨1, 0, 50⟩ : CacheEntry ℕ))] "b" 5 10)
      "b" = some ⟨5, 10, 110⟩ := by
  have h := setCachedResponse_spec ⟨true, 100, 2⟩ [("a", (⟨1, 0, 50⟩ : CacheEntry ℕ))] "b" 5 10
    rfl (by decide) (by unfold nodupKeys; decide)
  exact ⟨h.1, h.2.1⟩

/-- C3: when a request misses the cache and no inflight registration exists
for its key, the handler performs the upstream call, and once that call
settles the inflight registration is removed unconditionally — on success
and on failure alike; the result is written into the TTL cache only on
success; a failed call changes nothing in the cache beyond the lookup's
lazy expiry, so an identical follow-up request performs a fresh upstream
attempt. -/
theorem handleAgentRequest_settles {α : Type} (cfg : CacheConfig) (st : ServerState α)
    (key : String) (now : ℤ) (upstream : Except String α)
    (hmiss : (getCachedResponse cfg st.cache key now).1 = none)
    (hinfl : key ∉ st.inflight) (hnd : nodupKeys st.cache) :
    key ∉ (handleAgentRequest cfg st key now upstream).1.inflight ∧
    (handleAgentRequest cfg st key now upstream).2 = .fresh upstream ∧
    (∀ e, upstream = .error e →
      (handleAgentRequest cfg st key now upstream).1.cache =
        (getCachedResponse cfg st.cache key now).2) ∧
    (∀ v, upstream = .ok v →
      (handleAgentRequest cfg st key now upstream).1.cache =
        setCachedResponse cfg (getCachedResponse cfg st.cache key now).2 key v now) ∧
    (∀ e, upstream = .error e → ∀ u₂ : Except String α,
      (handleAgentRequest cfg (handleAgentRequest cfg st key now upstream).1 key now u₂).2 =
        .fresh u₂) := by
  have hrun : handleAgentRequest cfg st key now upstream =
      (match upstream with
        | .ok payload =>
          (⟨setCachedResponse cfg (getCachedResponse cfg st.cache key now).2 key payload now,
            (st.inflight ++ [key]).erase key⟩, .fresh (.ok payload))
        | .error e =>
          (⟨(getCachedResponse cfg st.cache key now).2,
            (st.inflight ++ [key]).erase key⟩, .fresh (.error e))) := by
    unfold handleAgentRequest
    dsimp only
    rw [hmiss]
    rw [if_neg hinfl]
  have herase : (st.inflight ++ [key]).erase key = st.inflight := erase_append_singleton hinfl
  cases upstream with
  | ok payload =>
    rw [hrun]
    dsimp only
    rw [herase]
    refine ⟨hinfl, rfl, ?_, ?_, ?_⟩
    · intro e he
      cases he
    · intro v hv
      cases hv
      rfl
    · intro e he
      cases he
  | error e =>
    rw [hrun]
    dsimp only
    rw [herase]
    refine ⟨hinfl, rfl, ?_, ?_, ?_⟩
    · intro e' _
      rfl
    · intro v hv
      cases hv
    · intro e' _ u₂
      have hmiss₂ : (getCachedResponse cfg (getCachedResponse cfg st.cache key now).2
          key now).1 = none := getCachedResponse_none_again cfg st.cache key now hnd hmiss
      unfold handleAgentRequest
      dsimp only
      rw [hmiss₂]
      rw [if_neg hinfl]
      cases u₂ <;> rfl

/-- C3 witness: a concrete failing upstream call on an empty state: the
inflight registration for the key is gone afterwards and the request
performed the upstream call itself. -/
theorem handleAgentRequest_settles_witness :
    "k" ∉ (handleAgentRequest ⟨true, 100, 5⟩ (⟨[], []⟩ : ServerState ℕ) "k" 0
      (.error "boom")).1.inflight ∧
    (handleAgentRequest ⟨true, 100, 5⟩ (⟨[], []⟩ : ServerState ℕ) "k" 0
      (.error "boom")).2 = .fresh (.error "boom") :=
  have h := handleAgentRequest_settles ⟨true, 100, 5⟩ (⟨[], []⟩ : ServerState ℕ) "k" 0
    (.error "boom") (by decide) (by simp) (by simp [nodupKeys])
  ⟨h.1, h.2.1⟩

/-! ## Tool-layer claim theorems -/

/-- C2 counterexample: the claimed follow-up call — `minRating = 4` with
keyword, type, and location all omitted, immediately after a successful
search — does not succeed: `nearbySearch` throws the missing-search-term
error.  The tool reads nothing but its own arguments (the stored
`lastNearbySearchContext` slot is never read anywhere in the repository),
so no stored context can change this outcome. -/
theorem nearbySearch_followup_counterexample :
    nearbySearch ⟨none, none, none, none, some 4, none⟩ =
      .error nearbyNeedSearchTermMessage := by
  rfl

/-- C2 (amended): whenever the keyword trims to nothing and the type is
absent or empty, `nearbySearch` fails with the missing-search-term error,
regardless of any previously stored conversation context — the tool
implements no context reuse (follow-up reuse is delegated to the LLM
prompt layer, which re-supplies the omitted arguments). -/
theorem nearbySearch_missing_term (args : NearbySearchArgs)
    (hk : optPresent args.keyword = none) (ht : optFalsy args.type = none) :
    nearbySearch args = .error nearbyNeedSearchTermMessage := by
  unfold nearbySearch
  rw [if_pos ⟨hk, ht⟩]

/-- C2 witness: a follow-up filter call carrying only `minRating = 4.5`
and a radius fails with the missing-search-term error. -/
theorem nearbySearch_missing_term_witness :
    nearbySearch ⟨none, none, some 500, none, some 4.5, none⟩ =
      .error nearbyNeedSearchTermMessage :=
  nearbySearch_missing_term ⟨none, none, some 500, none, some 4.5, none⟩ rfl rfl

/-- C10: for every executor table, tool name, and argument object, the
promise returned by `executeTool` fulfills — it is `.ok` — and never
rejects: an unrecognized tool name yields a failure result carrying the
unsupported-tool message, a thrown (`.error`) tool implementation yields a
failure result whose message names the failed tool, and a fulfilled tool
implementation's result is passed through unchanged. -/
theorem executeTool_never_rejects {Args : Type}
    (executors : String → Option (Args → Except String ToolResult))
    (toolName : String) (args : Args) :
    (∃ r, executeTool executors toolName args = .ok r) ∧
    (executors toolName = none →
      executeTool executors toolName args = .ok ⟨false, unsupportedToolMessage toolName⟩) ∧
    (∀ executor e, executors toolName = some executor → executor args = .error e →
      executeTool executors toolName args = .ok ⟨false, toolErrorMessage toolName e⟩) ∧
    (∀ executor r, executors toolName = some executor → executor args = .ok r →
      executeTool executors toolName args = .ok r) := by
  have hnone : executors toolName = none →
      executeTool executors toolName args = .ok ⟨false, unsupportedToolMessage toolName⟩ := by
    intro hx
    unfold executeTool
    rw [hx]
  have hsome : ∀ executor, executors toolName = some executor →
      executeTool executors toolName args =
        (match executor args with
          | .ok r => .ok r
          | .error e => .ok ⟨false, toolErrorMessage toolName e⟩) := by
    intro executor hx
    unfold executeTool
    rw [hx]
  refine ⟨?_, hnone, ?_, ?_⟩
  · cases hx : executors toolName with
    | none => exact ⟨_, hnone hx⟩
    | some executor =>
      cases hr : executor args with
      | ok r => exact ⟨r, by rw [hsome executor hx, hr]⟩
      | error e => exact ⟨_, by rw [hsome executor hx, hr]⟩
  · intro executor e hx he
    rw [hsome executor hx, he]
  · intro executor r hx hr
    rw [hsome executor hx, hr]

/-- C10 witness: a table with one always-throwing tool: the throwing call
and an unknown-name call both fulfill with failure results. -/
theorem executeTool_never_rejects_witness :
    (executeTool (fun n => if n = "searchPlace" then
        some (fun _ : Unit => .error "boom") else none) "searchPlace" () =
      .ok ⟨false, toolErrorMessage "searchPlace" "boom"⟩) ∧
    (executeTool (fun n => if n = "searchPlace" then
        some (fun _ : Unit => .error "boom") else none) "teleport" () =
      .ok ⟨false, unsupportedToolMessage "teleport"⟩) :=
  ⟨(executeTool_never_rejects (fun n => if n = "searchPlace" then
        some (fun _ : Unit => .error "boom") else none) "searchPlace" ()).2.2.1
      (fun _ => .error "boom") "boom" (by simp) rfl,
    (executeTool_never_rejects (fun n => if n = "searchPlace" then
        some (fun _ : Unit => .error "boom") else none) "teleport" ()).2.1 (by simp)⟩

/-! ## Nearby-search pipeline lemmas -/

theorem length_filter_add_length_filter_not {β : Type} (l : List β) (p : β → Bool) :
    (l.filter p).length + (l.filter (fun a => !(p a))).length = l.length := by
  induction l with
  | nil => rfl
  | cons x xs ih =>
    by_cases hx : p x <;> simp [List.filter_cons, hx, ← ih] <;> omega

theorem fetchNearbyPlaces_ok_elim {dist : LatLng → LatLng → ℚ} {location : LatLng}
    {keyword ty : Option String} {radiusArg minRatingArg : Option ℚ}
    {resp : GoogleNearbyResponse} {res : NearbySearchResult}
    (h : fetchNearbyPlaces dist location keyword ty radiusArg minRatingArg resp = .ok res) :
    (resp.status = some "ZERO_RESULTS" ∧
      res = ⟨normalizeNearbyRadius radiusArg, normalizeMinRating minRatingArg, 0, 0, 0, []⟩) ∨
    (resp.status ≠ some "ZERO_RESULTS" ∧
      res = nearbyPipeline dist location (normalizeNearbyRadius radiusArg)
        (normalizeMinRating minRatingArg) (resp.results.getD [])) := by
  unfold fetchNearbyPlaces at h
  dsimp only at h
  split at h
  · cases h
  · split at h
    · rename_i hz
      left
      cases h
      exact ⟨hz, rfl⟩
    · split at h
      · cases h
      · rename_i hz _
        right
        cases h
        exact ⟨hz, rfl⟩

theorem nearbyPipeline_places_dist (dist : LatLng → LatLng → ℚ) (location : LatLng)
    (radius : ℤ) (minRating : Option ℚ) (items : List GoogleNearbyItem) :
    ∀ p ∈ (nearbyPipeline dist location radius minRating items).places,
      p.distanceMeters = dist location ⟨p.lat, p.lng⟩ ∧ p.distanceMeters ≤ (radius : ℚ) := by
  intro p hp
  unfold nearbyPipeline at hp
  dsimp only at hp
  rw [List.mem_insertionSort] at hp
  have hp1 := (List.mem_filter.mp hp).1
  rw [List.mem_insertionSort] at hp1
  have hp2 := List.mem_filter.mp hp1
  have hdist : p.distanceMeters ≤ (radius : ℚ) := by
    have := hp2.2
    simpa using this
  obtain ⟨q, _, rfl⟩ := List.mem_map.mp hp2.1
  exact ⟨rfl, hdist⟩

/-- C1: for every nearby search that returns a result, every returned place
lies within the normalized search radius: the pipeline recomputes the
distance `dist(center, candidate)` for each directory candidate (storing it
in `distanceMeters`) and discards every candidate whose distance exceeds
the normalized radius — so for every returned place `p`,
`dist(center, p) ≤ normalizeNearbyRadius radiusArg`, for every distance
function `dist`, hence in particular for geo.ts `haversineDistanceMeters`,
and regardless of what the directory's own radius hint admitted (the
response `resp` is arbitrary). -/
theorem fetchNearbyPlaces_strict_radius (dist : LatLng → LatLng → ℚ) (location : LatLng)
    (keyword ty : Option String) (radiusArg minRatingArg : Option ℚ)
    (resp : GoogleNearbyResponse) (res : NearbySearchResult)
    (h : fetchNearbyPlaces dist location keyword ty radiusArg minRatingArg resp = .ok res) :
    res.radius = normalizeNearbyRadius radiusArg ∧
    ∀ p ∈ res.places, p.distanceMeters = dist location ⟨p.lat, p.lng⟩ ∧
      p.distanceMeters ≤ (normalizeNearbyRadius radiusArg : ℚ) := by
  rcases fetchNearbyPlaces_ok_elim h with ⟨_, rfl⟩ | ⟨_, rfl⟩
  · refine ⟨rfl, ?_⟩
    intro p hp
    cases hp
  · exact ⟨rfl, nearbyPipeline_places_dist dist location _ _ _⟩

/-- C1 witness: the scenario search returns places, each carrying its
recomputed distance, all within the normalized 500 m radius. -/
theorem fetchNearbyPlaces_strict_radius_witness :
    resC7.radius = normalizeNearbyRadius (some 500) ∧
    ∀ p ∈ resC7.places, p.distanceMeters = distC7 centerC7 ⟨p.lat, p.lng⟩ ∧
      p.distanceMeters ≤ (normalizeNearbyRadius (some 500) : ℚ) :=
  fetchNearbyPlaces_strict_radius distC7 centerC7 (some "cafe") none (some 500) none
    respC7 resC7 (by decide!)

theorem normalizeMinRating_nonneg {o : Option ℚ} {m : ℚ}
    (h : normalizeMinRating o = some m) : 0 ≤ m := by
  cases o with
  | none => cases h
  | some r =>
    unfold normalizeMinRating at h
    have hm : m = (jsRound (min 5 (max 0 r) * 10) : ℚ) / 10 := by
      cases h
      rfl
    have hbase : (0 : ℚ) ≤ min 5 (max 0 r) * 10 := by
      have h1 : (0 : ℚ) ≤ min 5 (max 0 r) := le_min (by norm_num) (le_max_left 0 r)
      nlinarith
    have hfloor : (0 : ℤ) ≤ jsRound (min 5 (max 0 r) * 10) := by
      unfold jsRound
      rw [Int.le_floor]
      push_cast
      linarith
    rw [hm]
    apply div_nonneg _ (by norm_num)
    exact_mod_cast hfloor

/-- C6: if `minRating` is set for a nearby search that returns a result,
every returned place carries a rating and that rating is at least the
search's (normalized) minimum — unrated candidates never pass the filter;
if `minRating` is not set, no candidate is removed on account of rating
(the rating-filtered count is zero). -/
theorem fetchNearbyPlaces_rating_filter (dist : LatLng → LatLng → ℚ) (location : LatLng)
    (keyword ty : Option String) (radiusArg minRatingArg : Option ℚ)
    (resp : GoogleNearbyResponse) (res : NearbySearchResult)
    (h : fetchNearbyPlaces dist location keyword ty radiusArg minRatingArg resp = .ok res) :
    res.minRating = normalizeMinRating minRatingArg ∧
    (∀ m, res.minRating = some m →
      ∀ p ∈ res.places, ∃ r, p.rating = some r ∧ m ≤ r) ∧
    (minRatingArg = none → res.ratingFilteredOutCount = 0) := by
  rcases fetchNearbyPlaces_ok_elim h with ⟨_, rfl⟩ | ⟨_, rfl⟩
  · refine ⟨rfl, ?_, fun _ => rfl⟩
    intro m _ p hp
    cases hp
  · refine ⟨rfl, ?_, ?_⟩
    · intro m hm p hp
      have hm' : normalizeMinRating minRatingArg = some m := hm
      have hmnn : (0 : ℚ) ≤ m := normalizeMinRating_nonneg hm'
      unfold nearbyPipeline at hp
      dsimp only at hp
      rw [List.mem_insertionSort] at hp
      have hpass := (List.mem_filter.mp hp).2
      rw [hm'] at hpass
      unfold ratingPasses at hpass
      rw [decide_eq_true_eq] at hpass
      cases hr : p.rating with
      | none =>
        rw [hr] at hpass
        simp at hpass
        linarith
      | some r =>
        refine ⟨r, rfl, ?_⟩
        rw [hr] at hpass
        simpa using hpass
    · intro hnone
      subst hnone
      unfold nearbyPipeline
      dsimp only
      have hfilter : ∀ l : List NearbyPlace, l.filter (ratingPasses (normalizeMinRating none)) = l :=
        fun l => List.filter_eq_self.mpr (fun a _ => rfl)
      rw [hfilter]
      simp [List.length_insertionSort]

/-- C6 witness: a search with `minRating = 4` over three candidates rated
4.5, 3, and unrated keeps exactly the 4.5-rated place, and the place's
rating is at least the reported minimum. -/
theorem fetchNearbyPlaces_rating_filter_witness :
    resC6.minRating = normalizeMinRating (some 4) ∧
    (∀ m, resC6.minRating = some m →
      ∀ p ∈ resC6.places, ∃ r, p.rating = some r ∧ m ≤ r) ∧
    ((some 4 : Option ℚ) = none → resC6.ratingFilteredOutCount = 0) :=
  fetchNearbyPlaces_rating_filter distC7 ⟨10, 106⟩ (some "cafe") none none (some 4)
    respC6 resC6 (by decide!)

/-- C7 counterexample: the claim says `rawCount` equals the raw directory
result count for every directory response.  On a response whose single
result carries no usable coordinates, the parse step drops the item before
counting, so the search succeeds with `rawCount = 0` although the directory
returned 1 result. -/
theorem fetchNearbyPlaces_rawCount_counterexample :
    fetchNearbyPlaces (fun _ _ => 0) ⟨0, 0⟩ (some "cafe") none none none respNoCoords =
      .ok ⟨1000, none, 0, 0, 0, []⟩ ∧
    (respNoCoords.results.getD []).length = 1 := by
  constructor
  · decide!
  · rfl

/-- C7 (amended): for every directory response with an `OK` status, the
nearby-search result reports `rawCount` equal to the number of directory
results that carry finite coordinates (coordinate-less results are dropped
by the parse step before counting), `filteredOutCount` equal to the number
of those candidates removed by the strict radius filter,
`ratingFilteredOutCount` equal to the number removed by the rating filter,
the returned places sorted ascending by distance from the center, and as
many returned places as candidates passing both filters — in particular,
with 8 coordinate-bearing candidates of which 3 lie beyond the 500 m
radius by true distance and no rating filter, the search reports
`rawCount = 8`, `filteredOutCount = 3`, and returns exactly 5 places in
ascending-distance order (the witness instantiates this scenario). -/
theorem fetchNearbyPlaces_counts_sorted (dist : LatLng → LatLng → ℚ) (location : LatLng)
    (keyword ty : Option String) (radiusArg minRatingArg : Option ℚ)
    (resp : GoogleNearbyResponse) (res : NearbySearchResult)
    (hstatus : resp.status = some "OK")
    (h : fetchNearbyPlaces dist location keyword ty radiusArg minRatingArg resp = .ok res) :
    res.rawCount = ((resp.results.getD []).filterMap parseItem).length ∧
    res.filteredOutCount = ((((resp.results.getD []).filterMap parseItem).map
      (annotateDistance dist location)).filter
        (fun p => !decide (p.distanceMeters ≤ (res.radius : ℚ)))).length ∧
    res.ratingFilteredOutCount = (((((resp.results.getD []).filterMap parseItem).map
      (annotateDistance dist location)).filter
        (fun p => decide (p.distanceMeters ≤ (res.radius : ℚ)))).filter
        (fun p => !ratingPasses (normalizeMinRating minRatingArg) p)).length ∧
    res.places.Pairwise distLE ∧
    res.places.length = (((((resp.results.getD []).filterMap parseItem).map
      (annotateDistance dist location)).filter
        (fun p => decide (p.distanceMeters ≤ (res.radius : ℚ)))).filter
        (ratingPasses (normalizeMinRating minRatingArg))).length := by
  rcases fetchNearbyPlaces_ok_elim h with ⟨hz, _⟩ | ⟨_, rfl⟩
  · rw [hstatus] at hz
    simp at hz
  · unfold nearbyPipeline
    dsimp only
    set parsed := (resp.results.getD []).filterMap parseItem with hparsed
    set withDist := parsed.map (annotateDistance dist location) with hwd
    set inRad := withDist.filter
      (fun p => decide (p.distanceMeters ≤ ((normalizeNearbyRadius radiusArg : ℤ) : ℚ)))
      with hinrad
    set sortedInRad := inRad.insertionSort distLE with hsorted
    set passed := sortedInRad.filter (ratingPasses (normalizeMinRating minRatingArg))
      with hpassed
    have hlen1 : sortedInRad.length = inRad.length := List.length_insertionSort _ _
    have hlenwd : withDist.length = parsed.length := List.length_map _ _
    have hpermsort : List.Perm sortedInRad inRad := List.perm_insertionSort _ _
    have hpermfilter : List.Perm passed
        (inRad.filter (ratingPasses (normalizeMinRating minRatingArg))) :=
      hpermsort.filter _
    refine ⟨rfl, ?_, ?_, ?_, ?_⟩
    · have hc := length_filter_add_length_filter_not withDist
        (fun p => decide (p.distanceMeters ≤ ((normalizeNearbyRadius radiusArg : ℤ) : ℚ)))
      rw [← hinrad] at hc
      have hle : inRad.length ≤ withDist.length := List.length_filter_le _ _
      rw [hlen1]
      omega
    · have hc := length_filter_add_length_filter_not inRad
        (ratingPasses (normalizeMinRating minRatingArg))
      rw [List.length_insertionSort, List.length_insertionSort, hpermfilter.length_eq]
      omega
    · exact List.sorted_insertionSort distLE passed
    · rw [List.length_insertionSort, hpermfilter.length_eq]

/-- C7 witness: the §8 scenario — center (10.7769, 106.7009), radius 500,
8 coordinate-bearing directory candidates of which 3 lie beyond 500 m by
true distance, no rating filter: the search reports `rawCount = 8` and
`filteredOutCount = 3` and returns exactly the 5 in-radius places in
ascending-distance order (all recorded in `resC7`). -/
theorem fetchNearbyPlaces_counts_sorted_witness :
    resC7.rawCount = ((respC7.results.getD []).filterMap parseItem).length ∧
    resC7.filteredOutCount = ((((respC7.results.getD []).filterMap parseItem).map
      (annotateDistance distC7 centerC7)).filter
        (fun p => !decide (p.distanceMeters ≤ (resC7.radius : ℚ)))).length ∧
    resC7.ratingFilteredOutCount = (((((respC7.results.getD []).filterMap parseItem).map
      (annotateDistance distC7 centerC7)).filter
        (fun p => decide (p.distanceMeters ≤ (resC7.radius : ℚ)))).filter
        (fun p => !ratingPasses (normalizeMinRating none) p)).length ∧
    resC7.places.Pairwise distLE ∧
    resC7.places.length = (((((respC7.results.getD []).filterMap parseItem).map
      (annotateDistance distC7 centerC7)).filter
        (fun p => decide (p.distanceMeters ≤ (resC7.radius : ℚ)))).filter
        (ratingPasses (normalizeMinRating none))).length :=
  fetchNearbyPlaces_counts_sorted distC7 centerC7 (some "cafe") none (some 500) none
    respC7 resC7 rfl (by decide!)

/-! ## Polyline decoder lemmas -/

theorem int_land_natCast (a b : ℕ) : Int.land (a : ℤ) (b : ℤ) = ((a &&& b : ℕ) : ℤ) := rfl

theorem int_lor_natCast (a b : ℕ) : Int.lor (a : ℤ) (b : ℤ) = ((a ||| b : ℕ) : ℤ) := rfl

theorem int_shiftRight_one (a : ℕ) : ((a : ℤ) >>> (1 : ℤ)) = ((a >>> 1 : ℕ) : ℤ) := by
  rw [show (1 : ℤ) = ((1 : ℕ) : ℤ) from rfl, Int.shiftRight_coe_nat]

theorem decodeChunks_snd_le (l : List ℤ) (r : ℤ) (s : ℕ) :
    (decodeChunks l r s).2.length ≤ l.length := by
  induction l generalizing r s with
  | nil => simp [decodeChunks]
  | cons c rest ih =>
    simp only [decodeChunks]
    split
    · exact Nat.le_trans (ih _ _) (Nat.le_succ _)
    · simp

theorem decodeChunks_cons_snd_le (c : ℤ) (rest : List ℤ) (r : ℤ) (s : ℕ) :
    (decodeChunks (c :: rest) r s).2.length ≤ rest.length := by
  simp only [decodeChunks]
  split
  · exact decodeChunks_snd_le rest _ _
  · simp

theorem decodeCoords_length_le (l : List ℤ) (lat lng : ℤ) :
    (decodeCoords l lat lng).length ≤ l.length := by
  suffices H : ∀ (n : ℕ) (l : List ℤ) (lat lng : ℤ), l.length ≤ n →
      (decodeCoords l lat lng).length ≤ l.length from H l.length l lat lng le_rfl
  intro n
  induction n with
  | zero =>
    intro l lat lng hl
    have hnil : l = [] := List.eq_nil_of_length_eq_zero (by omega)
    subst hnil
    simp [decodeCoords]
  | succ n ih =>
    intro l lat lng hl
    cases l with
    | nil => simp [decodeCoords]
    | cons c rest =>
      rw [decodeCoords]
      have h1 := decodeChunks_cons_snd_le c rest 0 0
      have h2 : (decodeChunks (decodeChunks (c :: rest) 0 0).2 0 0).2.length ≤
          (decodeChunks (c :: rest) 0 0).2.length := decodeChunks_snd_le _ _ _
      have h3 := ih (decodeChunks (decodeChunks (c :: rest) 0 0).2 0 0).2
        (lat + decodeDelta (decodeChunks (c :: rest) 0 0).1)
        (lng + decodeDelta (decodeChunks (decodeChunks (c :: rest) 0 0).2 0 0).1)
        (by simp only [List.length_cons] at hl; omega)
      simp only [List.length_cons]
      omega

theorem chunk_split (t s : ℕ) :
    ((t % 32) <<< s) ||| ((t / 32) <<< (s + 5)) = t <<< s := by
  have hmod : ∀ j, (t % 32).testBit j = (decide (j < 5) && t.testBit j) := by
    intro j
    rw [show (32 : ℕ) = 2 ^ 5 from rfl, Nat.testBit_mod_two_pow]
  have hdiv : ∀ j, (t / 32).testBit j = t.testBit (5 + j) := by
    intro j
    rw [show (32 : ℕ) = 2 ^ 5 from rfl, ← Nat.shiftRight_eq_div_pow,
      Nat.testBit_shiftRight]
  apply Nat.eq_of_testBit_eq
  intro i
  simp only [Nat.testBit_or, Nat.testBit_shiftLeft, hmod, hdiv, ge_iff_le]
  rcases Nat.lt_or_ge i s with h1 | h1
  · have d1 : ¬ s ≤ i := by omega
    have d2 : ¬ s + 5 ≤ i := by omega
    simp [d1, d2]
  · rcases Nat.lt_or_ge i (s + 5) with h2 | h2
    · have d2 : ¬ s + 5 ≤ i := by omega
      have d3 : i - s < 5 := by omega
      simp [h1, d2, d3]
    · have d3 : ¬ (i - s < 5) := by omega
      have e2 : 5 + (i - (s + 5)) = i - s := by omega
      simp [h1, h2, d3, e2]

theorem decodeChunks_encodeChunksN (t : ℕ) : ∀ (s : ℕ) (r : ℕ) (rest : List ℤ),
    decodeChunks (natCodes (encodeChunksN t) ++ rest) (r : ℤ) s =
      (((r ||| (t <<< s) : ℕ) : ℤ), rest) := by
  induction t using Nat.strong_induction_on with
  | _ t ih =>
    intro s r rest
    by_cases ht : t < 32
    · rw [encodeChunksN, if_pos ht]
      simp only [natCodes, List.map_cons, List.map_nil, List.cons_append, List.nil_append,
        decodeChunks]
      have hbyte : ((t + 63 : ℕ) : ℤ) - 63 = ((t : ℕ) : ℤ) := by
        push_cast
        ring
      rw [hbyte]
      rw [if_neg (by omega : ¬ (32 : ℤ) ≤ ((t : ℕ) : ℤ))]
      rw [show (31 : ℤ) = ((31 : ℕ) : ℤ) from rfl, int_land_natCast,
        Int.shiftLeft_coe_nat, int_lor_natCast]
      have h31 : t &&& 31 = t := by
        rw [show (31 : ℕ) = 2 ^ 5 - 1 from rfl]
        exact Nat.and_pow_two_sub_one_of_lt_two_pow ht
      rw [h31]
      rfl
    · rw [encodeChunksN, if_neg ht]
      simp only [natCodes, List.map_cons, List.map_append, List.cons_append, decodeChunks]
      have hbyte : ((32 + t % 32 + 63 : ℕ) : ℤ) - 63 = ((32 + t % 32 : ℕ) : ℤ) := by
        push_cast
        ring
      rw [hbyte]
      rw [if_pos (by omega : (32 : ℤ) ≤ ((32 + t % 32 : ℕ) : ℤ))]
      have hland : Int.land ((32 + t % 32 : ℕ) : ℤ) 31 = ((t % 32 : ℕ) : ℤ) := by
        rw [show (31 : ℤ) = ((31 : ℕ) : ℤ) from rfl, int_land_natCast]
        have : (32 + t % 32) &&& 31 = t % 32 := by
          rw [show (31 : ℕ) = 2 ^ 5 - 1 from rfl, Nat.and_pow_two_sub_one_eq_mod]
          omega
        rw [this]
      rw [hland, Int.shiftLeft_coe_nat, int_lor_natCast]
      have hih := ih (t / 32) (by omega) (s + 5) (r ||| ((t % 32) <<< s)) rest
      simp only [natCodes] at hih
      have hsplit : (r ||| ((t % 32) <<< s)) ||| ((t / 32) <<< (s + 5)) =
          r ||| (t <<< s) := by
        rw [Nat.or_assoc, chunk_split]
      rw [hsplit] at hih
      exact hih

theorem int_not_natCast (k : ℕ) : ~~~((k : ℕ) : ℤ) = -(((k : ℕ) : ℤ) + 1) := by
  rw [show ~~~((k : ℕ) : ℤ) = Int.negSucc k from rfl, Int.negSucc_eq]

theorem decodeDelta_zigzag (v : ℤ) :
    decodeDelta (((if v < 0 then (-(2 * v) - 1).toNat else (2 * v).toNat : ℕ) : ℤ)) = v := by
  unfold decodeDelta
  by_cases hv : v < 0
  · rw [if_pos hv]
    set t := (-(2 * v) - 1).toNat with ht
    have htv : (t : ℤ) = -(2 * v) - 1 := by omega
    have hodd : t % 2 = 1 := by omega
    have hland : Int.land (t : ℤ) 1 = ((t &&& 1 : ℕ) : ℤ) := by
      rw [show (1 : ℤ) = ((1 : ℕ) : ℤ) from rfl, int_land_natCast]
    rw [hland, Nat.and_one_is_mod, hodd]
    rw [if_pos (by norm_num)]
    rw [int_shiftRight_one]
    have hdiv : (t >>> 1 : ℕ) = t / 2 := by
      rw [Nat.shiftRight_eq_div_pow]
    rw [hdiv, int_not_natCast]
    omega
  · rw [if_neg hv]
    set t := (2 * v).toNat with ht
    have htv : (t : ℤ) = 2 * v := by omega
    have heven : t % 2 = 0 := by omega
    have hland : Int.land (t : ℤ) 1 = ((t &&& 1 : ℕ) : ℤ) := by
      rw [show (1 : ℤ) = ((1 : ℕ) : ℤ) from rfl, int_land_natCast]
    rw [hland, Nat.and_one_is_mod, heven]
    rw [if_neg (by norm_num)]
    rw [int_shiftRight_one]
    have hdiv : (t >>> 1 : ℕ) = t / 2 := by
      rw [Nat.shiftRight_eq_div_pow]
    rw [hdiv]
    omega

theorem natCodes_append (l₁ l₂ : List ℕ) :
    natCodes (l₁ ++ l₂) = natCodes l₁ ++ natCodes l₂ := by
  unfold natCodes
  exact List.map_append _ _ _

theorem encodeChunksN_ne_nil (t : ℕ) : encodeChunksN t ≠ [] := by
  rw [encodeChunksN]
  split <;> simp

theorem decodeCoords_two_chunks (t₁ t₂ : ℕ) (tail : List ℤ) (lat lng : ℤ) :
    decodeCoords (natCodes (encodeChunksN t₁) ++ (natCodes (encodeChunksN t₂) ++ tail))
        lat lng =
      (((lng + decodeDelta ((t₂ : ℕ) : ℤ) : ℤ) : ℚ) / 100000,
        ((lat + decodeDelta ((t₁ : ℕ) : ℤ) : ℤ) : ℚ) / 100000) ::
        decodeCoords tail (lat + decodeDelta ((t₁ : ℕ) : ℤ))
          (lng + decodeDelta ((t₂ : ℕ) : ℤ)) := by
  obtain ⟨c, cs, hc⟩ : ∃ c cs, encodeChunksN t₁ = c :: cs := by
    cases h : encodeChunksN t₁ with
    | nil => exact absurd h (encodeChunksN_ne_nil t₁)
    | cons c cs => exact ⟨c, cs, rfl⟩
  have hlist : natCodes (encodeChunksN t₁) ++ (natCodes (encodeChunksN t₂) ++ tail) =
      ((c : ℕ) : ℤ) :: (natCodes cs ++ (natCodes (encodeChunksN t₂) ++ tail)) := by
    rw [hc]
    simp [natCodes]
  have h1 : decodeChunks
      (((c : ℕ) : ℤ) :: (natCodes cs ++ (natCodes (encodeChunksN t₂) ++ tail))) 0 0 =
      (((t₁ : ℕ) : ℤ), natCodes (encodeChunksN t₂) ++ tail) := by
    have hbase := decodeChunks_encodeChunksN t₁ 0 0 (natCodes (encodeChunksN t₂) ++ tail)
    rw [hc] at hbase
    simp only [natCodes, List.map_cons, List.cons_append] at hbase ⊢
    simpa [Nat.zero_or, Nat.shiftLeft_zero] using hbase
  have h2 : decodeChunks (natCodes (encodeChunksN t₂) ++ tail) 0 0 =
      (((t₂ : ℕ) : ℤ), tail) := by
    have hbase := decodeChunks_encodeChunksN t₂ 0 0 tail
    simpa [Nat.zero_or, Nat.shiftLeft_zero] using hbase
  rw [hlist, decodeCoords]
  rw [h1]
  dsimp only
  rw [h2]

theorem decodeCoords_encodePolyline (pairs : List (ℤ × ℤ)) : ∀ (pla pln : ℤ),
    decodeCoords (natCodes (encodePolyline pairs pla pln)) pla pln =
      pairs.map (fun p => (((p.2 : ℤ) : ℚ) / 100000, ((p.1 : ℤ) : ℚ) / 100000)) := by
  induction pairs with
  | nil =>
    intro pla pln
    simp [encodePolyline, natCodes, decodeCoords]
  | cons hd rest ih =>
    intro pla pln
    obtain ⟨la, ln⟩ := hd
    rw [encodePolyline]
    rw [List.append_assoc, natCodes_append, natCodes_append]
    rw [show encodeSigned (la - pla) = encodeChunksN
      (if la - pla < 0 then (-(2 * (la - pla)) - 1).toNat else (2 * (la - pla)).toNat)
      from rfl]
    rw [show encodeSigned (ln - pln) = encodeChunksN
      (if ln - pln < 0 then (-(2 * (ln - pln)) - 1).toNat else (2 * (ln - pln)).toNat)
      from rfl]
    rw [decodeCoords_two_chunks]
    rw [decodeDelta_zigzag (la - pla), decodeDelta_zigzag (ln - pln)]
    have e1 : pla + (la - pla) = la := by ring
    have e2 : pln + (ln - pln) = ln := by ring
    rw [e1, e2, ih la ln, List.map_cons]

/-- C9: the polyline decoder is total and never runs past its input — on
every character-code sequence, well-formed or truncated, it terminates
(it is a total function by construction, and the `decodeChunks` empty-list
case models the source's exit when a read past the end yields NaN, whose
masked chunk is 0 and which fails the continuation test) and yields at
most one coordinate pair per input character; and on well-formed input it
reverses the fixed-precision 1e5 signed-delta 5-bit-chunked varint
encoding — decoding the standard encoding of any (lat, lng) delta
sequence yields exactly the original coordinates as (lng, lat) pairs
scaled by 1e5. The integer delta accumulators round-trip exactly, and the
stated equality scales the same recovered integers by the same final
division on both sides, so it is insensitive to how that division rounds:
it holds verbatim for the source's double division as well. -/
theorem decodeGooglePolyline_spec :
    (∀ encoded : List ℤ, (decodeGooglePolyline encoded).length ≤ encoded.length) ∧
    (∀ pairs : List (ℤ × ℤ),
      decodeGooglePolyline (natCodes (encodePolyline pairs 0 0)) =
        pairs.map (fun p => (((p.2 : ℤ) : ℚ) / 100000, ((p.1 : ℤ) : ℚ) / 100000))) := by
  constructor
  · intro encoded
    exact decodeCoords_length_le encoded 0 0
  · intro pairs
    exact decodeCoords_encodePolyline pairs 0 0

theorem buildBufferCoordinates_head (T : TrigLib) (center : RealLatLng) (r : ℝ)
    (s : ℕ) :
    (buildBufferCoordinates T center r s).head? = some (bufferPoint T center r s 0) := by
  unfold buildBufferCoordinates
  rw [List.range_succ_eq_map, List.map_cons, List.head?_cons]

theorem buildBufferCoordinates_getLast (T : TrigLib) (center : RealLatLng) (r : ℝ)
    (s : ℕ) :
    (buildBufferCoordinates T center r s).getLast? =
      some (bufferPoint T center r s s) := by
  unfold buildBufferCoordinates
  rw [List.range_succ, List.map_append, List.map_cons, List.map_nil,
    List.getLast?_concat]

theorem bufferPoint_closed (T : TrigLib) (center : RealLatLng) (r : ℝ) (s : ℕ)
    (hs : s ≠ 0) (hsin : T.sin (2 * Real.pi) = T.sin 0)
    (hcos : T.cos (2 * Real.pi) = T.cos 0) :
    bufferPoint T center r s s = bufferPoint T center r s 0 := by
  unfold bufferPoint
  dsimp only
  have hne : ((s : ℕ) : ℝ) ≠ 0 := Nat.cast_ne_zero.mpr hs
  have h1 : (2 : ℝ) * Real.pi * ((s : ℕ) : ℝ) / ((s : ℕ) : ℝ) = 2 * Real.pi := by
    rw [mul_div_assoc, div_self hne, mul_one]
  have h2 : (2 : ℝ) * Real.pi * ((0 : ℕ) : ℝ) / ((s : ℕ) : ℝ) = 0 := by
    simp
  rw [h1, h2, hsin, hcos]

theorem atan2_zero_of_nonneg (x : ℝ) (hx : 0 ≤ x) : atan2 0 x = 0 := by
  unfold atan2
  have hc : (⟨x, 0⟩ : ℂ) = ((x : ℝ) : ℂ) := rfl
  rw [hc]
  exact Complex.arg_ofReal_of_nonneg hx

theorem atan2_ne_zero (y x : ℝ) (hy : y ≠ 0) : atan2 y x ≠ 0 := by
  unfold atan2
  intro hz
  rw [Complex.arg_eq_zero_iff] at hz
  exact hy hz.2

theorem toDegrees_inj (a b : ℝ) (h : toDegrees a = toDegrees b) : a = b := by
  unfold toDegrees at h
  have hpi := Real.pi_ne_zero
  field_simp at h
  linarith

/-- C8 counterexample: the claimed bitwise first == last closure fails for
the trig library the program actually calls. The ring's last bearing is
`2π` and its first bearing is `0`; IEEE-double `Math.sin(2 * Math.PI)`
evaluates to `-2.4492935982947064e-16` while `Math.sin(0)` is exactly `0`.
With `floatTrig` carrying that one documented value (exact everywhere
else), the ring centered at (lat 0, lng 0) with radius `EARTH_RADIUS_M`
and the source's 72 segments has first point of longitude `0` but last
point of strictly negative longitude, so head and last differ. -/
theorem buildBufferCoordinates_closure_counterexample :
    (buildBufferCoordinates floatTrig ⟨0, 0⟩ EARTH_RADIUS_M 72).head? ≠
      (buildBufferCoordinates floatTrig ⟨0, 0⟩ EARTH_RADIUS_M 72).getLast? := by
  rw [buildBufferCoordinates_head, buildBufferCoordinates_getLast]
  intro h
  have hp := Option.some.inj h
  have hfst := congrArg Prod.fst hp
  have hpi3 := Real.pi_gt_three
  have h0ne : (0 : ℝ) ≠ 2 * Real.pi := by nlinarith
  have h1ne : (1 : ℝ) ≠ 2 * Real.pi := by nlinarith
  have hsin0 : flSin 0 = 0 := by
    unfold flSin
    rw [if_neg h0ne, Real.sin_zero]
  have hsin1 : flSin 1 = Real.sin 1 := by
    unfold flSin
    rw [if_neg h1ne]
  have hsin2pi : flSin (2 * Real.pi) = -(24492935982947064 : ℝ) / 10 ^ 32 := by
    unfold flSin
    rw [if_pos rfl]
  have hR : EARTH_RADIUS_M / EARTH_RADIUS_M = (1 : ℝ) := by
    unfold EARTH_RADIUS_M
    norm_num
  have h0 : toRadians (0 : ℝ) = 0 := by
    unfold toRadians
    ring
  have hb0 : (2 : ℝ) * Real.pi * ((0 : ℕ) : ℝ) / ((72 : ℕ) : ℝ) = 0 := by
    norm_num
  have hb72 : (2 : ℝ) * Real.pi * ((72 : ℕ) : ℝ) / ((72 : ℕ) : ℝ) = 2 * Real.pi := by
    rw [mul_div_assoc, div_self (by norm_num), mul_one]
  unfold bufferPoint at hfst
  dsimp only [floatTrig] at hfst
  rw [hR, h0, hb0, hb72] at hfst
  rw [hsin0, hsin1, hsin2pi] at hfst
  simp only [Real.cos_zero, zero_mul, mul_zero, zero_add, mul_one, one_mul,
    sub_zero] at hfst
  have hcos1 : (0 : ℝ) < Real.cos 1 := by
    apply Real.cos_pos_of_mem_Ioo
    constructor
    · nlinarith
    · nlinarith
  have hs1 : (0 : ℝ) < Real.sin 1 := Real.sin_pos_of_pos_of_lt_pi one_pos (by nlinarith)
  have hYne : -(24492935982947064 : ℝ) / 10 ^ 32 * Real.sin 1 ≠ 0 :=
    mul_ne_zero (by norm_num) (ne_of_gt hs1)
  have hEq := toDegrees_inj _ _ hfst
  rw [atan2_zero_of_nonneg (Real.cos 1) (le_of_lt hcos1)] at hEq
  exact atan2_ne_zero _ _ hYne hEq.symm

/-- C8 (corrected): for every trig library, center, radius, and segment
count, `buildBufferCoordinates` returns exactly `segments + 1` coordinate
pairs, each obtained by spherical destination-point math at angular
distance `radiusMeters / EARTH_RADIUS_M`; and whenever the library's sin
and cos agree at `2π` and `0` (bearing of the last and first index), the
first and last coordinates are identical. This holds in particular for the
exact real functions (`exactTrig`, the witness), but not bitwise for the
source's IEEE-double `Math` library, whose `sin` does not vanish at
`2 * Math.PI` — there the ring closes only approximately. -/
theorem buildBufferCoordinates_spec :
    (∀ (T : TrigLib) (center : RealLatLng) (radiusMeters : ℝ) (segments : ℕ),
      (buildBufferCoordinates T center radiusMeters segments).length =
        segments + 1) ∧
    (∀ (T : TrigLib) (center : RealLatLng) (radiusMeters : ℝ) (segments : ℕ),
      segments ≠ 0 → T.sin (2 * Real.pi) = T.sin 0 → T.cos (2 * Real.pi) = T.cos 0 →
      (buildBufferCoordinates T center radiusMeters segments).head? =
        (buildBufferCoordinates T center radiusMeters segments).getLast?) := by
  constructor
  · intro T center r s
    unfold buildBufferCoordinates
    rw [List.length_map, List.length_range]
  · intro T center r s hs hsin hcos
    rw [buildBufferCoordinates_head, buildBufferCoordinates_getLast,
      bufferPoint_closed T center r s hs hsin hcos]

theorem buildBufferCoordinates_spec_witness :
    (buildBufferCoordinates exactTrig ⟨10, 106⟩ 500 BUFFER_SEGMENTS).length =
      BUFFER_SEGMENTS + 1 ∧
    (buildBufferCoordinates exactTrig ⟨10, 106⟩ 500 BUFFER_SEGMENTS).head? =
      (buildBufferCoordinates exactTrig ⟨10, 106⟩ 500 BUFFER_SEGMENTS).getLast? :=
  ⟨buildBufferCoordinates_spec.1 exactTrig ⟨10, 106⟩ 500 BUFFER_SEGMENTS,
    buildBufferCoordinates_spec.2 exactTrig ⟨10, 106⟩ 500 BUFFER_SEGMENTS
      (by decide)
      (by simp [exactTrig, Real.sin_two_pi, Real.sin_zero])
      (by simp [exactTrig, Real.cos_two_pi, Real.cos_zero])⟩
